import Mathlib

/-!
Verification of the icon-brightening pipeline in src/brighten_icon.py.

The program decodes an RGBA PNG, splits it into channels, enhances the RGB
part (PIL ImageEnhance.Brightness 1.4, then Contrast 1.3, then Color 1.5),
re-attaches the original alpha plane, builds a Gaussian-blurred glow layer,
alpha-composites the sharp image over the glow, and writes the result.

The embedding below follows Pillow's actual semantics:
* ImageEnhance.X(img).enhance(f) is Image.blend(degenerate, img, f), whose
  per-channel arithmetic (libImaging/Blend.c) copies an endpoint at f = 0 or
  f = 1, truncates the interpolant for 0 < f < 1, and clamps-then-truncates
  for extrapolation.  Pillow performs this in C single-precision floats; the
  embedding uses exact rational arithmetic, which agrees except within one
  float ulp of an integer boundary.  All concrete inputs used below keep a
  margin of at least 1/16 from such boundaries.
* RGB-to-L conversion (libImaging/Convert.c) is
  (19595 r + 38470 g + 7471 b + 32768) >>> 16.
* Image.alpha_composite (libImaging/AlphaComposite.c) is the exact integer
  fixed-point computation with 7 bits of extra precision, including the
  src-alpha-zero fast path and the SHIFTFORDIV255 approximate division.
* ImageFilter.GaussianBlur(radius 4) is realised by Pillow as repeated box
  blurs in floating point; it is modelled here as three horizontal and three
  vertical passes of a radius-4 box filter with clamp-to-edge sampling and
  round-to-nearest integer averaging.  No claim settled below depends on the
  numeric pixel values the blur produces, only on the blur being a
  shape-preserving per-channel transform.
-/

/-- One pixel: red, green, blue, alpha, each an 8-bit value stored as Nat. -/
structure RGBA where
  r : Nat
  g : Nat
  b : Nat
  a : Nat
deriving DecidableEq

/-- One pixel of a 3-channel image (the working image without alpha). -/
structure RGB where
  r : Nat
  g : Nat
  b : Nat
deriving DecidableEq

/-- A 4-channel image: dimensions plus a total pixel function. -/
structure Img where
  width : Nat
  height : Nat
  pix : Nat → Nat → RGBA

/-- A 3-channel image (mode RGB), the working image of lines 22-37. -/
structure ImgRGB where
  width : Nat
  height : Nat
  pix : Nat → Nat → RGB

/-- A pixel is well formed when every channel is an 8-bit value. -/
def RGBA.Wf (p : RGBA) : Prop := p.r ≤ 255 ∧ p.g ≤ 255 ∧ p.b ≤ 255 ∧ p.a ≤ 255

instance (p : RGBA) : Decidable p.Wf := by unfold RGBA.Wf; infer_instance

/-- An image is well formed when every pixel of its pixel function is. -/
def Img.Wf (img : Img) : Prop := ∀ x y, (img.pix x y).Wf

/-- A 3-channel pixel with 8-bit channels. -/
def RGB.Wf (p : RGB) : Prop := p.r ≤ 255 ∧ p.g ≤ 255 ∧ p.b ≤ 255

instance (p : RGB) : Decidable p.Wf := by unfold RGB.Wf; infer_instance

/-- A 3-channel image with 8-bit channels everywhere. -/
def ImgRGB.Wf (img : ImgRGB) : Prop := ∀ x y, (img.pix x y).Wf

/-- Clamp a rational to [0, 255] and truncate, as Blend.c does on the
extrapolation path: temp at most 0 gives 0, temp at least 255 gives 255,
otherwise the float-to-UINT8 cast truncates the (positive) value. -/
def clamp255Floor (q : ℚ) : Nat :=
  if q ≤ 0 then 0 else if 255 ≤ q then 255 else (⌊q⌋).toNat

/-- Per-channel semantics of Image.blend(im1, im2, f) from Blend.c:
f = 0 copies im1, f = 1 copies im2, interpolation truncates
in1 + f * (in2 - in1), extrapolation additionally clamps to [0, 255]. -/
def blendChannel (f : ℚ) (v1 v2 : Nat) : Nat :=
  if f = 0 then v1
  else if f = 1 then v2
  else if 0 ≤ f ∧ f ≤ 1 then (⌊(v1 : ℚ) + f * ((v2 : ℚ) - (v1 : ℚ))⌋).toNat
  else clamp255Floor ((v1 : ℚ) + f * ((v2 : ℚ) - (v1 : ℚ)))

/-- RGB to greyscale conversion of Convert.c (ITU-R 601-2 weights in 16-bit
fixed point with rounding): (19595 r + 38470 g + 7471 b + 32768) >>> 16. -/
def lum (p : RGB) : Nat :=
  (19595 * p.r + 38470 * p.g + 7471 * p.b + 32768) / 65536

/-- Sum of f over the coordinate rectangle of a w-by-h image. -/
def pixSum (w h : Nat) (f : Nat → Nat → ℚ) : ℚ :=
  ((List.range h).map (fun y => ((List.range w).map (fun x => f x y)).sum)).sum

/-- ImageEnhance.Brightness: degenerate image is black, so each channel is
blended against 0 (line 25-26 of the source, factor 1.4). -/
def brightnessEnhance (f : ℚ) (img : ImgRGB) : ImgRGB :=
  { width := img.width, height := img.height
    pix := fun x y =>
      let p := img.pix x y
      ⟨blendChannel f 0 p.r, blendChannel f 0 p.g, blendChannel f 0 p.b⟩ }

/-- Mean of the greyscale conversion of the image, as ImageStat.Stat(...).mean
computes it (exact sum over pixels divided by the pixel count). -/
def meanL (img : ImgRGB) : ℚ :=
  pixSum img.width img.height (fun x y => (lum (img.pix x y) : ℚ)) /
    ((img.width : ℚ) * (img.height : ℚ))

/-- ImageEnhance.Contrast rounds the greyscale mean to an integer with
int(mean + 0.5). -/
def contrastMean (img : ImgRGB) : Nat := (⌊meanL img + 1 / 2⌋).toNat

/-- ImageEnhance.Contrast: degenerate image is the constant rounded greyscale
mean, blended per channel (line 29-30 of the source, factor 1.3). -/
def contrastEnhance (f : ℚ) (img : ImgRGB) : ImgRGB :=
  { width := img.width, height := img.height
    pix := fun x y =>
      let m := contrastMean img
      let p := img.pix x y
      ⟨blendChannel f m p.r, blendChannel f m p.g, blendChannel f m p.b⟩ }

/-- ImageEnhance.Color: degenerate image is the per-pixel greyscale
conversion replicated to RGB (line 33-34 of the source, factor 1.5). -/
def colorEnhance (f : ℚ) (img : ImgRGB) : ImgRGB :=
  { width := img.width, height := img.height
    pix := fun x y =>
      let p := img.pix x y
      let l := lum p
      ⟨blendChannel f l p.r, blendChannel f l p.g, blendChannel f l p.b⟩ }

/-- Greyscale version of an RGB image: convert to L and back to RGB.  This is
the degenerate image of ImageEnhance.Color. -/
def grayImgRGB (img : ImgRGB) : ImgRGB :=
  { width := img.width, height := img.height
    pix := fun x y =>
      let l := lum (img.pix x y)
      ⟨l, l, l⟩ }

/-- Channel isolation (lines 19-22): drop the alpha plane, keeping RGB. -/
def rgbPart (img : Img) : ImgRGB :=
  { width := img.width, height := img.height
    pix := fun x y =>
      let p := img.pix x y
      ⟨p.r, p.g, p.b⟩ }

/-- Alpha re-attachment (lines 37-40): merge the enhanced RGB planes with the
alpha plane of the original image. -/
def attachAlpha (rgb : ImgRGB) (img : Img) : Img :=
  { width := rgb.width, height := rgb.height
    pix := fun x y =>
      let p := rgb.pix x y
      ⟨p.r, p.g, p.b, (img.pix x y).a⟩ }

/-- Clamp-to-edge index used by the box blur at the image border. -/
def clampIdx (n : Nat) (i : Int) : Nat :=
  if i < 0 then 0 else min i.toNat (n - 1)

/-- Round-to-nearest average of a window of 9 samples. -/
def boxAvg (vs : List Nat) : Nat := (vs.sum + 4) / 9

/-- One horizontal pass of a radius-4 box filter, per channel, with
clamp-to-edge sampling. -/
def blurH (img : Img) : Img :=
  { width := img.width, height := img.height
    pix := fun x y =>
      let ps := (List.range 9).map
        (fun (d : Nat) => img.pix (clampIdx img.width ((x : Int) + (d : Int) - 4)) y)
      ⟨boxAvg (ps.map RGBA.r), boxAvg (ps.map RGBA.g),
       boxAvg (ps.map RGBA.b), boxAvg (ps.map RGBA.a)⟩ }

/-- One vertical pass of a radius-4 box filter. -/
def blurV (img : Img) : Img :=
  { width := img.width, height := img.height
    pix := fun x y =>
      let ps := (List.range 9).map
        (fun (d : Nat) => img.pix x (clampIdx img.height ((y : Int) + (d : Int) - 4)))
      ⟨boxAvg (ps.map RGBA.r), boxAvg (ps.map RGBA.g),
       boxAvg (ps.map RGBA.b), boxAvg (ps.map RGBA.a)⟩ }

/-- Model of ImageFilter.GaussianBlur(radius 4) (line 45): three horizontal
and three vertical box-blur passes; see the header note on fidelity. -/
def gaussianBlur4 (img : Img) : Img := blurV (blurV (blurV (blurH (blurH (blurH img)))))

/-- SHIFTFORDIV255 from AlphaComposite.c: an approximate division by 255. -/
def div255 (x : Nat) : Nat := (x / 256 + x) / 256

/-- Pixel-level Image.alpha_composite from AlphaComposite.c: d is the
destination (background) pixel, s the source (foreground) pixel.  A fully
transparent source copies the destination; otherwise the over operator is
computed in integer fixed point with 7 extra bits of precision. -/
def compositePix (d s : RGBA) : RGBA :=
  if s.a = 0 then d
  else
    let blend := d.a * (255 - s.a)
    let outa255 := s.a * 255 + blend
    let coef1 := s.a * 255 * 255 * 128 / outa255
    let coef2 := 255 * 128 - coef1
    ⟨div255 (s.r * coef1 + d.r * coef2 + 16384) / 128,
     div255 (s.g * coef1 + d.g * coef2 + 16384) / 128,
     div255 (s.b * coef1 + d.b * coef2 + 16384) / 128,
     div255 (outa255 + 128)⟩

/-- Image.alpha_composite(dst, src) (line 48): pixelwise over operator with
dst as background and src as foreground. -/
def alphaComposite (dst src : Img) : Img :=
  { width := dst.width, height := dst.height
    pix := fun x y => compositePix (dst.pix x y) (src.pix x y) }

/-- The enhanced RGB working image (lines 22-34), with the brightness factor
kept as a parameter; the program uses 7/5.  Brightness is applied first, then
contrast (13/10), then saturation (3/2), each consuming the previous output. -/
def rgbEnhanced (f : ℚ) (img : Img) : ImgRGB :=
  colorEnhance (3 / 2) (contrastEnhance (13 / 10) (brightnessEnhance f (rgbPart img)))

/-- The 4-channel enhanced image named brightened in the source (line 40). -/
def brightenedWith (f : ℚ) (img : Img) : Img := attachAlpha (rgbEnhanced f img) img

/-- The enhanced image with the fixed brightness factor 1.4 of line 26. -/
def brightenedOf (img : Img) : Img := brightenedWith (7 / 5) img

/-- The glow layer (lines 44-45): blurred copy of the enhanced image. -/
def glowWith (f : ℚ) (img : Img) : Img := gaussianBlur4 (brightenedWith f img)

/-- The glow layer of the actual program. -/
def glowOf (img : Img) : Img := glowWith (7 / 5) img

/-- The final composite (line 48): glow as background, enhanced on top. -/
def finalWith (f : ℚ) (img : Img) : Img :=
  alphaComposite (glowWith f img) (brightenedWith f img)

/-- The final image of the actual program. -/
def finalOf (img : Img) : Img := finalWith (7 / 5) img

/-- Mean value of the RGB channels over the whole image. -/
def meanLum (img : Img) : ℚ :=
  pixSum img.width img.height
      (fun x y =>
        let p := img.pix x y
        ((p.r : ℚ) + (p.g : ℚ) + (p.b : ℚ))) /
    (3 * (img.width : ℚ) * (img.height : ℚ))

/-- Mean value of the channels of a 3-channel image. -/
def meanLumRGB (img : ImgRGB) : ℚ :=
  pixSum img.width img.height
      (fun x y =>
        let p := img.pix x y
        ((p.r : ℚ) + (p.g : ℚ) + (p.b : ℚ))) /
    (3 * (img.width : ℚ) * (img.height : ℚ))

/-- Observable outcome of one run of the script: the lines printed to
standard output, the process exit code, and the file written, if any. -/
structure RunResult where
  stdoutLines : List String
  exitCode : Nat
  written : Option (String × Img)

/-- The hardcoded input path of line 59. -/
def input_file : String := "apps/web/public/notext.png"

/-- The hardcoded output path of line 60. -/
def output_file : String := "apps/web/public/notext-bright.png"

/-- The success lines printed by lines 52-56 of the source. -/
def successLines (output_path : String) : List String :=
  ["[SUCCESS] Brightened icon saved to: " ++ output_path,
   "   - Brightness: 1.4x (subtle)",
   "   - Contrast: 1.3x",
   "   - Saturation: 1.5x",
   "   - Glow: 4px Gaussian blur (subtle)"]

/-- Model of brighten_icon (lines 12-56).  The filesystem is a partial map
from paths to decoded images; Image.open raises when the path is missing or
not decodable, modelled by the error branch (the message mirrors Pillow's
UnidentifiedImageError text).  On success it returns the composited image to
be written at the output path together with the printed lines. -/
def brighten_icon (fs : String → Option Img) (input_path output_path : String) :
    Except String (Img × List String) :=
  match fs input_path with
  | none => .error ("cannot identify image file " ++ input_path)
  | some img => .ok (finalOf img, successLines output_path)

/-- Model of the script entry point (lines 58-66): run brighten_icon on the
hardcoded paths; on an exception print an [ERROR] line and exit 1; otherwise
the printed lines are the success lines and the process exits 0. -/
def mainRun (fs : String → Option Img) : RunResult :=
  match brighten_icon fs input_file output_file with
  | .ok (img, lines) =>
      { stdoutLines := lines, exitCode := 0, written := some (output_file, img) }
  | .error e =>
      { stdoutLines := ["[ERROR] " ++ e], exitCode := 1, written := none }

/-- The per-pixel color value asserted by the spec sentence on compositing
(red channel): resultColor = enhancedColor * enhancedAlpha +
glowColor * glowAlpha * (1 - enhancedAlpha), with all channel arithmetic in
normalized [0, 1] space, rescaled to the 8-bit range.  This definition
follows the spec's words, for comparison against the code's compositor. -/
def specOverColor (e g : RGBA) : ℚ :=
  255 * (((e.r : ℚ) / 255) * ((e.a : ℚ) / 255) +
    ((g.r : ℚ) / 255) * ((g.a : ℚ) / 255) * (1 - (e.a : ℚ) / 255))

/-- A one-pixel icon with a fully transparent pixel. -/
def wImgTransparent : Img := ⟨1, 1, fun _ _ => ⟨0, 150, 255, 0⟩⟩

/-- A one-pixel fully opaque icon. -/
def wImgOpaque : Img := ⟨1, 1, fun _ _ => ⟨0, 150, 255, 255⟩⟩

/-- A one-pixel translucent icon. -/
def wImgTranslucent : Img := ⟨1, 1, fun _ _ => ⟨10, 20, 30, 40⟩⟩

/-- A one-pixel white half-transparent icon: on it the actual compositor
output differs visibly from the spec's premultiplied color formula. -/
def c2Img : Img := ⟨1, 1, fun _ _ => ⟨255, 255, 255, 128⟩⟩

/-- A five-pixel opaque grey strip on which raising the brightness factor
lowers the mean luminance of the pipeline output: the brighter first pixel
raises the rounded greyscale mean used by the contrast stage, which pushes
the mid-grey fourth pixel down by one step while every other pixel is
saturated or black. -/
def c8Img : Img :=
  ⟨5, 1, fun x _ =>
    let v := [5, 0, 197, 44, 147].getD x 0
    ⟨v, v, v, 255⟩⟩

/-- A one-pixel 3-channel image for the brightness monotonicity witness. -/
def wImgGray : ImgRGB := ⟨1, 1, fun _ _ => ⟨100, 50, 25⟩⟩

/-! ### Arithmetic helper lemmas -/

/-- Clamping always lands in the 8-bit range. -/
lemma clamp255Floor_le (q : ℚ) : clamp255Floor q ≤ 255 := by
  unfold clamp255Floor
  split_ifs with h1 h2
  · omega
  · omega
  · have hq : q < 255 := lt_of_not_le h2
    have hf : ⌊q⌋ < (255 : ℤ) := Int.floor_lt.mpr (by exact_mod_cast hq)
    omega

/-- Clamping is monotone. -/
lemma clamp255Floor_mono {q1 q2 : ℚ} (h : q1 ≤ q2) :
    clamp255Floor q1 ≤ clamp255Floor q2 := by
  unfold clamp255Floor
  by_cases h1 : q1 ≤ 0
  · simp only [if_pos h1]
    exact Nat.zero_le _
  · have h1' : ¬ q2 ≤ 0 := fun hc => h1 (le_trans h hc)
    simp only [if_neg h1, if_neg h1']
    by_cases h2 : (255 : ℚ) ≤ q1
    · have h2' : (255 : ℚ) ≤ q2 := le_trans h2 h
      simp only [if_pos h2, if_pos h2']
      exact le_refl _
    · simp only [if_neg h2]
      by_cases h3 : (255 : ℚ) ≤ q2
      · simp only [if_pos h3]
        have hf : ⌊q1⌋ < (255 : ℤ) := Int.floor_lt.mpr (by exact_mod_cast lt_of_not_le h2)
        omega
      · simp only [if_neg h3]
        have := Int.floor_mono h
        omega

/-- A natural number below 256 is its own clamped value. -/
lemma clamp255Floor_natCast {v : Nat} (h : v ≤ 255) :
    clamp255Floor (v : ℚ) = v := by
  unfold clamp255Floor
  split_ifs with h1 h2
  · have : v = 0 := by exact_mod_cast le_antisymm h1 (by positivity)
    omega
  · have : (255 : ℚ) ≤ v := h2
    have : 255 ≤ v := by exact_mod_cast this
    omega
  · rw [Int.floor_natCast]
    exact Int.toNat_natCast v

/-- On well-formed channels every branch of blendChannel agrees with the
clamp-and-truncate closed form. -/
lemma blendChannel_eq_clamp {f : ℚ} {v1 v2 : Nat} (h1 : v1 ≤ 255) (h2 : v2 ≤ 255) :
    blendChannel f v1 v2 = clamp255Floor ((v1 : ℚ) + f * ((v2 : ℚ) - (v1 : ℚ))) := by
  unfold blendChannel
  split_ifs with hf0 hf1 hint
  · rw [hf0]
    rw [show (v1 : ℚ) + 0 * ((v2 : ℚ) - v1) = (v1 : ℚ) by ring]
    exact (clamp255Floor_natCast h1).symm
  · rw [hf1]
    rw [show (v1 : ℚ) + 1 * ((v2 : ℚ) - v1) = (v2 : ℚ) by ring]
    exact (clamp255Floor_natCast h2).symm
  · obtain ⟨hf0', hf1'⟩ := hint
    set e : ℚ := (v1 : ℚ) + f * ((v2 : ℚ) - v1) with he
    have hv1 : (0 : ℚ) ≤ (v1 : ℚ) := by positivity
    have hv2 : (0 : ℚ) ≤ (v2 : ℚ) := by positivity
    have hv1' : (v1 : ℚ) ≤ 255 := by exact_mod_cast h1
    have hv2' : (v2 : ℚ) ≤ 255 := by exact_mod_cast h2
    have he0 : 0 ≤ e := by nlinarith [mul_nonneg (sub_nonneg.mpr hf1') hv1, mul_nonneg hf0' hv2]
    have he255 : e ≤ 255 := by
      nlinarith [mul_nonneg (sub_nonneg.mpr hf1') (sub_nonneg.mpr hv1'),
                 mul_nonneg hf0' (sub_nonneg.mpr hv2')]
    unfold clamp255Floor
    split_ifs with g1 g2
    · have : e = 0 := le_antisymm g1 he0
      rw [this]
      simp
    · have : e = 255 := le_antisymm he255 g2
      rw [this]
      simp
    · rfl
  · rfl

/-- Extrapolating blends (factor above 1) are clamped into the 8-bit range. -/
lemma blendChannel_le_extrap {f : ℚ} (hf : ¬ f ≤ 1) (v1 v2 : Nat) :
    blendChannel f v1 v2 ≤ 255 := by
  unfold blendChannel
  split_ifs with hf0 hf1 hint
  · exfalso
    rw [hf0] at hf
    exact hf (by norm_num)
  · exfalso
    exact hf (le_of_eq hf1)
  · exact absurd hint.2 hf
  · exact clamp255Floor_le _

/-- Any blend of well-formed channels is in the 8-bit range. -/
lemma blendChannel_le {f : ℚ} {v1 v2 : Nat} (h1 : v1 ≤ 255) (h2 : v2 ≤ 255) :
    blendChannel f v1 v2 ≤ 255 := by
  rw [blendChannel_eq_clamp h1 h2]
  exact clamp255Floor_le _

/-- Greyscale conversion of an 8-bit pixel is an 8-bit value. -/
lemma lum_le {p : RGB} (h : p.Wf) : lum p ≤ 255 := by
  obtain ⟨h1, h2, h3⟩ := h
  unfold lum
  omega

/-- SHIFTFORDIV255 with the rounding bias is exact round-to-nearest division
by 255 on the range reachable by the compositor. -/
lemma div255_eq_round {X : Nat} (h : X ≤ 65025) :
    div255 (X + 128) = (2 * X + 255) / 510 := by
  unfold div255
  omega

/-- SHIFTFORDIV255 is monotone. -/
lemma div255_mono {a b : Nat} (h : a ≤ b) : div255 a ≤ div255 b := by
  unfold div255
  exact Nat.div_le_div_right (Nat.add_le_add (Nat.div_le_div_right h) h)

/-- Base case for the alpha growth argument. -/
lemma le_div255_alpha {k : Nat} (h : k ≤ 255) : k ≤ div255 (k * 255 + 128) := by
  unfold div255
  omega

/-- Closed form of the compositor when the source pixel is not fully
transparent, with the fixed-point coefficients written out. -/
lemma compositePix_pos {d s : RGBA} (h0 : ¬ s.a = 0) :
    compositePix d s =
      ⟨div255 (s.r * (s.a * 255 * 255 * 128 / (s.a * 255 + d.a * (255 - s.a))) +
          d.r * (255 * 128 - s.a * 255 * 255 * 128 / (s.a * 255 + d.a * (255 - s.a))) +
          16384) / 128,
       div255 (s.g * (s.a * 255 * 255 * 128 / (s.a * 255 + d.a * (255 - s.a))) +
          d.g * (255 * 128 - s.a * 255 * 255 * 128 / (s.a * 255 + d.a * (255 - s.a))) +
          16384) / 128,
       div255 (s.b * (s.a * 255 * 255 * 128 / (s.a * 255 + d.a * (255 - s.a))) +
          d.b * (255 * 128 - s.a * 255 * 255 * 128 / (s.a * 255 + d.a * (255 - s.a))) +
          16384) / 128,
       div255 (s.a * 255 + d.a * (255 - s.a) + 128)⟩ := by
  unfold compositePix
  rw [if_neg h0]

/-- The output alpha of the compositor is exactly the round-to-nearest value
of the over-operator alpha (src alpha plus dst alpha weighted by the
remaining transparency), in 8-bit fixed point.  This covers the fully
transparent source fast path as well. -/
lemma compositePix_alpha {d s : RGBA} (hd : d.a ≤ 255) (hs : s.a ≤ 255) :
    (compositePix d s).a = (2 * (s.a * 255 + d.a * (255 - s.a)) + 255) / 510 := by
  by_cases h0 : s.a = 0
  · rw [compositePix, if_pos h0, h0]
    omega
  · rw [compositePix_pos h0]
    show div255 (s.a * 255 + d.a * (255 - s.a) + 128) = _
    have h1 : d.a * (255 - s.a) ≤ 255 * (255 - s.a) :=
      Nat.mul_le_mul_right _ hd
    have hX : s.a * 255 + d.a * (255 - s.a) ≤ 65025 := by omega
    exact div255_eq_round hX

/-- The output alpha never drops below the source (foreground) alpha. -/
lemma compositePix_alpha_ge {d s : RGBA} (hs : s.a ≤ 255) :
    s.a ≤ (compositePix d s).a := by
  by_cases h0 : s.a = 0
  · rw [compositePix, if_pos h0, h0]
    exact Nat.zero_le _
  · rw [compositePix_pos h0]
    show s.a ≤ div255 (s.a * 255 + d.a * (255 - s.a) + 128)
    have hmono : div255 (s.a * 255 + 128) ≤
        div255 (s.a * 255 + d.a * (255 - s.a) + 128) :=
      div255_mono (by omega)
    exact le_trans (le_div255_alpha hs) hmono

/-- One fixed-point color channel of an opaque source passes through the
compositor unchanged. -/
lemma opaqueColorChannel {c : Nat} (h : c ≤ 255) :
    div255 (c * 32640 + 16384) / 128 = c := by
  unfold div255
  omega

/-- A fully opaque source pixel is returned unchanged by the compositor,
whatever the destination pixel holds. -/
lemma compositePix_opaqueSrc {d s : RGBA} (hr : s.r ≤ 255) (hg : s.g ≤ 255)
    (hb : s.b ≤ 255) (ha : s.a = 255) : compositePix d s = s := by
  obtain ⟨sr, sg, sb, sa⟩ := s
  simp only at hr hg hb ha
  subst ha
  rw [compositePix_pos (by simp)]
  simp only
  rw [show (255 : Nat) - 255 = 0 from rfl, Nat.mul_zero, Nat.add_zero]
  rw [show (255 * 255 * 255 * 128 : Nat) / (255 * 255) = 32640 from by norm_num]
  rw [show (255 * 128 - 32640 : Nat) = 0 from by norm_num]
  rw [Nat.mul_zero, Nat.mul_zero, Nat.mul_zero]
  rw [Nat.add_zero, Nat.add_zero, Nat.add_zero]
  rw [RGBA.mk.injEq]
  refine ⟨opaqueColorChannel hr, opaqueColorChannel hg, opaqueColorChannel hb, ?_⟩
  unfold div255
  norm_num

/-! ### Well-formedness propagation through the pipeline -/

/-- A list of 8-bit values sums to at most its length times 255. -/
lemma listSum_le_255 {l : List Nat} (h : ∀ v ∈ l, v ≤ 255) :
    l.sum ≤ l.length * 255 := by
  induction l with
  | nil => simp
  | cons a t ih =>
      simp only [List.sum_cons, List.length_cons]
      have ha := h a (List.mem_cons_self a t)
      have ht := ih (fun v hv => h v (List.mem_cons_of_mem a hv))
      calc a + t.sum ≤ 255 + t.length * 255 := Nat.add_le_add ha ht
        _ = (t.length + 1) * 255 := by ring

/-- A 9-sample box average of 8-bit values is an 8-bit value. -/
lemma boxAvg_le {vs : List Nat} (hlen : vs.length = 9)
    (h : ∀ v ∈ vs, v ≤ 255) : boxAvg vs ≤ 255 := by
  unfold boxAvg
  have := listSum_le_255 h
  rw [hlen] at this
  omega

/-- The horizontal blur pass preserves well-formedness. -/
lemma blurH_Wf {img : Img} (h : Img.Wf img) : Img.Wf (blurH img) := by
  intro x y
  refine ⟨?_, ?_, ?_, ?_⟩
  all_goals
    apply boxAvg_le
    · rw [List.length_map, List.length_map, List.length_range]
    · intro v hv
      simp only [List.mem_map, List.mem_range] at hv
      obtain ⟨p, ⟨d, hd, rfl⟩, rfl⟩ := hv
      first
        | exact (h _ _).1
        | exact (h _ _).2.1
        | exact (h _ _).2.2.1
        | exact (h _ _).2.2.2

/-- The vertical blur pass preserves well-formedness. -/
lemma blurV_Wf {img : Img} (h : Img.Wf img) : Img.Wf (blurV img) := by
  intro x y
  refine ⟨?_, ?_, ?_, ?_⟩
  all_goals
    apply boxAvg_le
    · rw [List.length_map, List.length_map, List.length_range]
    · intro v hv
      simp only [List.mem_map, List.mem_range] at hv
      obtain ⟨p, ⟨d, hd, rfl⟩, rfl⟩ := hv
      first
        | exact (h _ _).1
        | exact (h _ _).2.1
        | exact (h _ _).2.2.1
        | exact (h _ _).2.2.2

/-- The modelled Gaussian blur preserves well-formedness. -/
lemma gaussianBlur4_Wf {img : Img} (h : Img.Wf img) :
    Img.Wf (gaussianBlur4 img) :=
  blurV_Wf (blurV_Wf (blurV_Wf (blurH_Wf (blurH_Wf (blurH_Wf h)))))

/-- Every channel of the enhanced RGB working image is an 8-bit value, for
any brightness factor: the last stage (saturation 3/2) is an extrapolating
blend and therefore clamps. -/
lemma rgbEnhanced_Wf (f : ℚ) (img : Img) : ImgRGB.Wf (rgbEnhanced f img) := by
  intro x y
  refine ⟨?_, ?_, ?_⟩ <;>
    exact blendChannel_le_extrap (by norm_num) _ _

/-- The alpha plane of the enhanced image is the alpha plane of the input,
for every brightness factor and every coordinate. -/
lemma brightenedWith_alpha (f : ℚ) (img : Img) (x y : Nat) :
    ((brightenedWith f img).pix x y).a = (img.pix x y).a := rfl

/-- The enhanced image is well formed whenever the input alpha plane is
8-bit (the color planes are clamped by the enhancement itself). -/
lemma brightenedWith_Wf (f : ℚ) {img : Img} (h : Img.Wf img) :
    Img.Wf (brightenedWith f img) := by
  intro x y
  have h3 := rgbEnhanced_Wf f img x y
  exact ⟨h3.1, h3.2.1, h3.2.2, (h x y).2.2.2⟩

/-- The glow layer is well formed for well-formed input. -/
lemma glowWith_Wf (f : ℚ) {img : Img} (h : Img.Wf img) :
    Img.Wf (glowWith f img) :=
  gaussianBlur4_Wf (brightenedWith_Wf f h)

/-- The final image pixel is the compositor applied to the glow (background)
and enhanced (foreground) pixels. -/
lemma finalWith_pix (f : ℚ) (img : Img) (x y : Nat) :
    (finalWith f img).pix x y =
      compositePix ((glowWith f img).pix x y) ((brightenedWith f img).pix x y) := rfl

/-- A horizontal blur pass keeps the width. -/
lemma blurH_width (img : Img) : (blurH img).width = img.width := rfl

/-- A horizontal blur pass keeps the height. -/
lemma blurH_height (img : Img) : (blurH img).height = img.height := rfl

/-- A vertical blur pass keeps the width. -/
lemma blurV_width (img : Img) : (blurV img).width = img.width := rfl

/-- A vertical blur pass keeps the height. -/
lemma blurV_height (img : Img) : (blurV img).height = img.height := rfl

/-- The modelled Gaussian blur keeps the width. -/
lemma gaussianBlur4_width (img : Img) : (gaussianBlur4 img).width = img.width := by
  show (blurV (blurV (blurV (blurH (blurH (blurH img)))))).width = img.width
  rw [blurV_width, blurV_width, blurV_width, blurH_width, blurH_width, blurH_width]

/-- The modelled Gaussian blur keeps the height. -/
lemma gaussianBlur4_height (img : Img) : (gaussianBlur4 img).height = img.height := by
  show (blurV (blurV (blurV (blurH (blurH (blurH img)))))).height = img.height
  rw [blurV_height, blurV_height, blurV_height, blurH_height, blurH_height, blurH_height]

/-- The enhanced image keeps the width. -/
lemma brightenedWith_width (f : ℚ) (img : Img) :
    (brightenedWith f img).width = img.width := rfl

/-- The enhanced image keeps the height. -/
lemma brightenedWith_height (f : ℚ) (img : Img) :
    (brightenedWith f img).height = img.height := rfl

/-- The glow layer keeps the width. -/
lemma glowWith_width (f : ℚ) (img : Img) : (glowWith f img).width = img.width := by
  show (gaussianBlur4 (brightenedWith f img)).width = img.width
  rw [gaussianBlur4_width, brightenedWith_width]

/-- The glow layer keeps the height. -/
lemma glowWith_height (f : ℚ) (img : Img) : (glowWith f img).height = img.height := by
  show (gaussianBlur4 (brightenedWith f img)).height = img.height
  rw [gaussianBlur4_height, brightenedWith_height]

/-- The compositor keeps the destination dimensions. -/
lemma alphaComposite_width (dst src : Img) : (alphaComposite dst src).width = dst.width := rfl

/-- The compositor keeps the destination height. -/
lemma alphaComposite_height (dst src : Img) : (alphaComposite dst src).height = dst.height := rfl

/-- The final image keeps the width. -/
lemma finalWith_width (f : ℚ) (img : Img) : (finalWith f img).width = img.width := by
  show (alphaComposite (glowWith f img) (brightenedWith f img)).width = img.width
  rw [alphaComposite_width, glowWith_width]

/-- The final image keeps the height. -/
lemma finalWith_height (f : ℚ) (img : Img) : (finalWith f img).height = img.height := by
  show (alphaComposite (glowWith f img) (brightenedWith f img)).height = img.height
  rw [alphaComposite_height, glowWith_height]

/-! ### Blend endpoint lemmas -/

/-- Blend at factor 1 copies the second image's channel exactly. -/
lemma blendChannel_one (v1 v2 : Nat) : blendChannel 1 v1 v2 = v2 := by
  unfold blendChannel
  rw [if_neg (by norm_num : ¬ (1 : ℚ) = 0), if_pos rfl]

/-- Blend at factor 0 copies the first image's channel exactly. -/
lemma blendChannel_zero (v1 v2 : Nat) : blendChannel 0 v1 v2 = v1 := by
  unfold blendChannel
  rw [if_pos rfl]

/-- Two 3-channel images with equal dimensions and pixels are equal. -/
lemma imgRGB_eq_of_pix {i1 i2 : ImgRGB} (hw : i1.width = i2.width)
    (hh : i1.height = i2.height) (hp : ∀ x y, i1.pix x y = i2.pix x y) :
    i1 = i2 := by
  obtain ⟨w1, h1, p1⟩ := i1
  obtain ⟨w2, h2, p2⟩ := i2
  simp only at hw hh hp
  subst hw
  subst hh
  have hfun : p1 = p2 := funext fun x => funext fun y => hp x y
  rw [hfun]

/-- Two 4-channel images with equal dimensions and pixels are equal. -/
lemma img_eq_of_pix {i1 i2 : Img} (hw : i1.width = i2.width)
    (hh : i1.height = i2.height) (hp : ∀ x y, i1.pix x y = i2.pix x y) :
    i1 = i2 := by
  obtain ⟨w1, h1, p1⟩ := i1
  obtain ⟨w2, h2, p2⟩ := i2
  simp only at hw hh hp
  subst hw
  subst hh
  have hfun : p1 = p2 := funext fun x => funext fun y => hp x y
  rw [hfun]

/-- Summing nine copies of a value. -/
lemma sum_const9 (c : Nat) : (((List.range 9).map (fun _ => c)).sum) = 9 * c := by
  show ([c, c, c, c, c, c, c, c, c]).sum = 9 * c
  simp only [List.sum_cons, List.sum_nil]
  omega

/-- The 9-sample box average of a constant window is that constant. -/
lemma boxAvg_map_const (c : Nat) : boxAvg ((List.range 9).map (fun _ => c)) = c := by
  unfold boxAvg
  rw [sum_const9]
  omega

/-- A horizontal blur pass fixes constant images. -/
lemma blurH_const (w h : Nat) (p : RGBA) :
    blurH ⟨w, h, fun _ _ => p⟩ = ⟨w, h, fun _ _ => p⟩ := by
  refine img_eq_of_pix rfl rfl ?_
  intro x y
  show RGBA.mk (boxAvg ((List.range 9).map (fun _ => p.r)))
      (boxAvg ((List.range 9).map (fun _ => p.g)))
      (boxAvg ((List.range 9).map (fun _ => p.b)))
      (boxAvg ((List.range 9).map (fun _ => p.a))) = p
  rw [boxAvg_map_const, boxAvg_map_const, boxAvg_map_const, boxAvg_map_const]

/-- A vertical blur pass fixes constant images. -/
lemma blurV_const (w h : Nat) (p : RGBA) :
    blurV ⟨w, h, fun _ _ => p⟩ = ⟨w, h, fun _ _ => p⟩ := by
  refine img_eq_of_pix rfl rfl ?_
  intro x y
  show RGBA.mk (boxAvg ((List.range 9).map (fun _ => p.r)))
      (boxAvg ((List.range 9).map (fun _ => p.g)))
      (boxAvg ((List.range 9).map (fun _ => p.b)))
      (boxAvg ((List.range 9).map (fun _ => p.a))) = p
  rw [boxAvg_map_const, boxAvg_map_const, boxAvg_map_const, boxAvg_map_const]

/-- The modelled Gaussian blur fixes constant images. -/
lemma gaussianBlur4_const (w h : Nat) (p : RGBA) :
    gaussianBlur4 ⟨w, h, fun _ _ => p⟩ = ⟨w, h, fun _ _ => p⟩ := by
  unfold gaussianBlur4
  rw [blurH_const, blurH_const, blurH_const, blurV_const, blurV_const, blurV_const]

/-- Blending a channel against a black degenerate image is clamped scaling. -/
lemma blendChannel_zero_left {f : ℚ} {v : Nat} (hv : v ≤ 255) :
    blendChannel f 0 v = clamp255Floor (f * (v : ℚ)) := by
  rw [blendChannel_eq_clamp (by omega) hv]
  congr 1
  push_cast
  ring

/-- On a fully opaque input the compositor returns the enhanced (foreground)
pixel unchanged, for every brightness factor. -/
lemma finalWith_opaqueInput (f : ℚ) (img : Img)
    (hOpq : ∀ x y, (img.pix x y).a = 255) :
    ∀ x y, (finalWith f img).pix x y = (brightenedWith f img).pix x y := by
  intro x y
  have hWfe := rgbEnhanced_Wf f img x y
  have ha : ((brightenedWith f img).pix x y).a = 255 := by
    rw [brightenedWith_alpha]
    exact hOpq x y
  exact compositePix_opaqueSrc hWfe.1 hWfe.2.1 hWfe.2.2 ha

/-! ### Claim theorems -/

/-- C1: the alpha plane extracted at channel isolation is untouched by the
brightness/contrast/saturation transforms (which act on the 3-channel
working image only) and is re-attached verbatim: the enhanced image's alpha
at every pixel equals the input alpha, and in particular a fully transparent
input pixel stays fully transparent in the enhanced (pre-glow) layer. -/
theorem claim1_alpha_preserved : ∀ (img : Img) (x y : Nat),
    ((brightenedOf img).pix x y).a = (img.pix x y).a ∧
    ((img.pix x y).a = 0 → ((brightenedOf img).pix x y).a = 0) := by
  intro img x y
  refine ⟨rfl, fun h => ?_⟩
  rw [show ((brightenedOf img).pix x y).a = (img.pix x y).a from rfl]
  exact h

/-- Witness for C1 at a concrete transparent pixel. -/
theorem claim1_witness : ((brightenedOf wImgTransparent).pix 0 0).a = 0 :=
  (claim1_alpha_preserved wImgTransparent 0 0).2 rfl

/-- C3: the enhancement stage is exactly brightness (factor 1.4 = 7/5), then
contrast (1.3 = 13/10), then saturation (1.5 = 3/2), in that order, each
stage consuming the previous stage's output, and every resulting channel
lies in [0, 255] (the Nat representation makes the lower bound implicit). -/
theorem claim3_enhancement_order : ∀ (img : Img) (x y : Nat),
    ((brightenedOf img).pix x y).r =
      ((colorEnhance (3 / 2) (contrastEnhance (13 / 10)
        (brightnessEnhance (7 / 5) (rgbPart img)))).pix x y).r ∧
    ((brightenedOf img).pix x y).g =
      ((colorEnhance (3 / 2) (contrastEnhance (13 / 10)
        (brightnessEnhance (7 / 5) (rgbPart img)))).pix x y).g ∧
    ((brightenedOf img).pix x y).b =
      ((colorEnhance (3 / 2) (contrastEnhance (13 / 10)
        (brightnessEnhance (7 / 5) (rgbPart img)))).pix x y).b ∧
    ((brightenedOf img).pix x y).r ≤ 255 ∧
    ((brightenedOf img).pix x y).g ≤ 255 ∧
    ((brightenedOf img).pix x y).b ≤ 255 := by
  intro img x y
  have h := rgbEnhanced_Wf (7 / 5) img x y
  exact ⟨rfl, rfl, rfl, h.1, h.2.1, h.2.2⟩

/-- C5: all images in the pipeline (3-channel working image, enhanced image,
glow layer, final composite) have the input image's dimensions. -/
theorem claim5_dimension_preservation : ∀ img : Img,
    (rgbPart img).width = img.width ∧ (rgbPart img).height = img.height ∧
    (brightenedOf img).width = img.width ∧ (brightenedOf img).height = img.height ∧
    (glowOf img).width = img.width ∧ (glowOf img).height = img.height ∧
    (finalOf img).width = img.width ∧ (finalOf img).height = img.height :=
  fun img =>
    ⟨rfl, rfl, rfl, rfl, glowWith_width (7 / 5) img, glowWith_height (7 / 5) img,
     finalWith_width (7 / 5) img, finalWith_height (7 / 5) img⟩

/-- C9: each enhancement is the identity at factor 1 (Blend.c copies the
image verbatim), and saturation at factor 0 yields the greyscale version
(Blend.c copies the degenerate image, which for Color is grey). -/
theorem claim9_enhancement_endpoints : ∀ img : ImgRGB,
    brightnessEnhance 1 img = img ∧ contrastEnhance 1 img = img ∧
    colorEnhance 1 img = img ∧ colorEnhance 0 img = grayImgRGB img := by
  intro img
  refine ⟨?_, ?_, ?_, ?_⟩
  · refine imgRGB_eq_of_pix rfl rfl ?_
    intro x y
    show RGB.mk (blendChannel 1 0 (img.pix x y).r) (blendChannel 1 0 (img.pix x y).g)
        (blendChannel 1 0 (img.pix x y).b) = img.pix x y
    rw [blendChannel_one, blendChannel_one, blendChannel_one]
  · refine imgRGB_eq_of_pix rfl rfl ?_
    intro x y
    show RGB.mk (blendChannel 1 (contrastMean img) (img.pix x y).r)
        (blendChannel 1 (contrastMean img) (img.pix x y).g)
        (blendChannel 1 (contrastMean img) (img.pix x y).b) = img.pix x y
    rw [blendChannel_one, blendChannel_one, blendChannel_one]
  · refine imgRGB_eq_of_pix rfl rfl ?_
    intro x y
    show RGB.mk (blendChannel 1 (lum (img.pix x y)) (img.pix x y).r)
        (blendChannel 1 (lum (img.pix x y)) (img.pix x y).g)
        (blendChannel 1 (lum (img.pix x y)) (img.pix x y).b) = img.pix x y
    rw [blendChannel_one, blendChannel_one, blendChannel_one]
  · refine imgRGB_eq_of_pix rfl rfl ?_
    intro x y
    show RGB.mk (blendChannel 0 (lum (img.pix x y)) (img.pix x y).r)
        (blendChannel 0 (lum (img.pix x y)) (img.pix x y).g)
        (blendChannel 0 (lum (img.pix x y)) (img.pix x y).b) = (grayImgRGB img).pix x y
    rw [blendChannel_zero, blendChannel_zero, blendChannel_zero]
    rfl

/-- C4: on a fully opaque input the compositing step is a no-op: the final
composite equals the enhanced image at every pixel, whatever the glow layer
holds (the enhanced foreground has alpha 255 everywhere). -/
theorem claim4_opaque_composite_noop (img : Img)
    (hOpq : ∀ x y, (img.pix x y).a = 255) :
    ∀ x y, (finalOf img).pix x y = (brightenedOf img).pix x y :=
  finalWith_opaqueInput (7 / 5) img hOpq

/-- Witness for C4 on a concrete opaque image. -/
theorem claim4_witness :
    (finalOf wImgOpaque).pix 0 0 = (brightenedOf wImgOpaque).pix 0 0 :=
  claim4_opaque_composite_noop wImgOpaque (fun _ _ => rfl) 0 0

/-- C10: the pipeline never decreases any pixel's opacity: the enhanced
layer carries the input alpha and the compositor's output alpha dominates
its foreground alpha. -/
theorem claim10_alpha_never_decreases (img : Img) (hWf : Img.Wf img) :
    ∀ x y, (img.pix x y).a ≤ ((finalOf img).pix x y).a := by
  intro x y
  have hs : ((brightenedOf img).pix x y).a ≤ 255 := by
    rw [show ((brightenedOf img).pix x y).a = (img.pix x y).a from rfl]
    exact (hWf x y).2.2.2
  have h := compositePix_alpha_ge (d := (glowOf img).pix x y) hs
  exact h

/-- Witness for C10 on a concrete translucent image. -/
theorem claim10_witness :
    (wImgTranslucent.pix 0 0).a ≤ ((finalOf wImgTranslucent).pix 0 0).a :=
  claim10_alpha_never_decreases wImgTranslucent
    (fun _ _ => (by decide : (RGBA.mk 10 20 30 40).Wf)) 0 0

/-- C6: when the input path is missing or not decodable the run prints an
error line, exits with code 1, and writes no output file. -/
theorem claim6_missing_input_fails : ∀ fs : String → Option Img,
    fs input_file = none →
    (mainRun fs).exitCode = 1 ∧ (mainRun fs).written = none ∧
    (mainRun fs).stdoutLines =
      ["[ERROR] " ++ ("cannot identify image file " ++ input_file)] := by
  intro fs h
  unfold mainRun brighten_icon
  rw [h]
  exact ⟨rfl, rfl, rfl⟩

/-- Witness for C6 on the empty filesystem. -/
theorem claim6_witness :
    (mainRun (fun _ => none)).exitCode = 1 ∧
    (mainRun (fun _ => none)).written = none ∧
    (mainRun (fun _ => none)).stdoutLines =
      ["[ERROR] " ++ ("cannot identify image file " ++ input_file)] :=
  claim6_missing_input_fails (fun _ => none) rfl

/-- C7: a successful run exits 0 and prints the success line with the output
path plus the four fixed parameter values; a failing run exits non-zero. -/
theorem claim7_success_output (fs : String → Option Img) :
    (∀ img, fs input_file = some img →
      (mainRun fs).exitCode = 0 ∧
      (mainRun fs).stdoutLines = successLines output_file ∧
      ("[SUCCESS] Brightened icon saved to: " ++ output_file) ∈ (mainRun fs).stdoutLines ∧
      "   - Brightness: 1.4x (subtle)" ∈ (mainRun fs).stdoutLines ∧
      "   - Contrast: 1.3x" ∈ (mainRun fs).stdoutLines ∧
      "   - Saturation: 1.5x" ∈ (mainRun fs).stdoutLines ∧
      "   - Glow: 4px Gaussian blur (subtle)" ∈ (mainRun fs).stdoutLines) ∧
    (fs input_file = none → (mainRun fs).exitCode ≠ 0) := by
  constructor
  · intro img h
    unfold mainRun brighten_icon
    rw [h]
    refine ⟨rfl, rfl, ?_, ?_, ?_, ?_, ?_⟩ <;> simp [successLines]
  · intro h
    unfold mainRun brighten_icon
    rw [h]
    simp


/-! ### Concrete evaluation lemmas for the counterexamples -/

/-- Pixel formula for channel isolation. -/
lemma rgbPart_pix (img : Img) (x y : Nat) :
    (rgbPart img).pix x y =
      ⟨(img.pix x y).r, (img.pix x y).g, (img.pix x y).b⟩ := rfl

/-- Pixel formula for the brightness stage. -/
lemma brightnessEnhance_pix (f : ℚ) (img : ImgRGB) (x y : Nat) :
    (brightnessEnhance f img).pix x y =
      ⟨blendChannel f 0 (img.pix x y).r, blendChannel f 0 (img.pix x y).g,
       blendChannel f 0 (img.pix x y).b⟩ := rfl

/-- Pixel formula for the contrast stage. -/
lemma contrastEnhance_pix (f : ℚ) (img : ImgRGB) (x y : Nat) :
    (contrastEnhance f img).pix x y =
      ⟨blendChannel f (contrastMean img) (img.pix x y).r,
       blendChannel f (contrastMean img) (img.pix x y).g,
       blendChannel f (contrastMean img) (img.pix x y).b⟩ := rfl

/-- Pixel formula for the saturation stage. -/
lemma colorEnhance_pix (f : ℚ) (img : ImgRGB) (x y : Nat) :
    (colorEnhance f img).pix x y =
      ⟨blendChannel f (lum (img.pix x y)) (img.pix x y).r,
       blendChannel f (lum (img.pix x y)) (img.pix x y).g,
       blendChannel f (lum (img.pix x y)) (img.pix x y).b⟩ := rfl

/-- Pixel formula for alpha re-attachment. -/
lemma brightenedWith_pix (f : ℚ) (img : Img) (x y : Nat) :
    (brightenedWith f img).pix x y =
      ⟨((rgbEnhanced f img).pix x y).r, ((rgbEnhanced f img).pix x y).g,
       ((rgbEnhanced f img).pix x y).b, (img.pix x y).a⟩ := rfl

/-- The enhancement stage is the three-stage composition by definition. -/
lemma rgbEnhanced_def (f : ℚ) (img : Img) :
    rgbEnhanced f img =
      colorEnhance (3 / 2) (contrastEnhance (13 / 10)
        (brightnessEnhance f (rgbPart img))) := rfl

/-- Greyscale conversion is the identity on grey pixels. -/
lemma lum_gray (c : Nat) : lum ⟨c, c, c⟩ = c := by
  show (19595 * c + 38470 * c + 7471 * c + 32768) / 65536 = c
  omega

/-- Pixels of the C8 strip. -/
lemma c8Img_pix0 : c8Img.pix 0 0 = ⟨5, 5, 5, 255⟩ := rfl

/-- Second pixel of the C8 strip. -/
lemma c8Img_pix1 : c8Img.pix 1 0 = ⟨0, 0, 0, 255⟩ := rfl

/-- Third pixel of the C8 strip. -/
lemma c8Img_pix2 : c8Img.pix 2 0 = ⟨197, 197, 197, 255⟩ := rfl

/-- Fourth pixel of the C8 strip. -/
lemma c8Img_pix3 : c8Img.pix 3 0 = ⟨44, 44, 44, 255⟩ := rfl

/-- Fifth pixel of the C8 strip. -/
lemma c8Img_pix4 : c8Img.pix 4 0 = ⟨147, 147, 147, 255⟩ := rfl

/-- Brightness 115/64 on channel 5. -/
lemma blend_b1_5 : blendChannel (115 / 64) 0 5 = 8 := by
  norm_num [blendChannel, clamp255Floor] <;> rfl

/-- Brightness 115/64 on channel 0. -/
lemma blend_b1_0 : blendChannel (115 / 64) 0 0 = 0 := by
  norm_num [blendChannel, clamp255Floor] <;> rfl

/-- Brightness 115/64 on channel 197 saturates. -/
lemma blend_b1_197 : blendChannel (115 / 64) 0 197 = 255 := by
  norm_num [blendChannel, clamp255Floor] <;> rfl

/-- Brightness 115/64 on channel 44. -/
lemma blend_b1_44 : blendChannel (115 / 64) 0 44 = 79 := by
  norm_num [blendChannel, clamp255Floor] <;> rfl

/-- Brightness 115/64 on channel 147 saturates. -/
lemma blend_b1_147 : blendChannel (115 / 64) 0 147 = 255 := by
  norm_num [blendChannel, clamp255Floor] <;> rfl

/-- Brightness 29/16 on channel 5. -/
lemma blend_b2_5 : blendChannel (29 / 16) 0 5 = 9 := by
  norm_num [blendChannel, clamp255Floor] <;> rfl

/-- Brightness 29/16 on channel 0. -/
lemma blend_b2_0 : blendChannel (29 / 16) 0 0 = 0 := by
  norm_num [blendChannel, clamp255Floor] <;> rfl

/-- Brightness 29/16 on channel 197 saturates. -/
lemma blend_b2_197 : blendChannel (29 / 16) 0 197 = 255 := by
  norm_num [blendChannel, clamp255Floor] <;> rfl

/-- Brightness 29/16 on channel 44. -/
lemma blend_b2_44 : blendChannel (29 / 16) 0 44 = 79 := by
  norm_num [blendChannel, clamp255Floor] <;> rfl

/-- Brightness 29/16 on channel 147 saturates. -/
lemma blend_b2_147 : blendChannel (29 / 16) 0 147 = 255 := by
  norm_num [blendChannel, clamp255Floor] <;> rfl

/-- Contrast 13/10 at mean 119 pushes channel 8 to black. -/
lemma blend_c119_8 : blendChannel (13 / 10) 119 8 = 0 := by
  norm_num [blendChannel, clamp255Floor] <;> rfl

/-- Contrast 13/10 at mean 119 keeps black. -/
lemma blend_c119_0 : blendChannel (13 / 10) 119 0 = 0 := by
  norm_num [blendChannel, clamp255Floor] <;> rfl

/-- Contrast 13/10 at mean 119 keeps white. -/
lemma blend_c119_255 : blendChannel (13 / 10) 119 255 = 255 := by
  norm_num [blendChannel, clamp255Floor] <;> rfl

/-- Contrast 13/10 at mean 119 on channel 79. -/
lemma blend_c119_79 : blendChannel (13 / 10) 119 79 = 67 := by
  norm_num [blendChannel, clamp255Floor] <;> rfl

/-- Contrast 13/10 at mean 120 pushes channel 9 to black. -/
lemma blend_c120_9 : blendChannel (13 / 10) 120 9 = 0 := by
  norm_num [blendChannel, clamp255Floor] <;> rfl

/-- Contrast 13/10 at mean 120 keeps black. -/
lemma blend_c120_0 : blendChannel (13 / 10) 120 0 = 0 := by
  norm_num [blendChannel, clamp255Floor] <;> rfl

/-- Contrast 13/10 at mean 120 keeps white. -/
lemma blend_c120_255 : blendChannel (13 / 10) 120 255 = 255 := by
  norm_num [blendChannel, clamp255Floor] <;> rfl

/-- Contrast 13/10 at mean 120 on channel 79. -/
lemma blend_c120_79 : blendChannel (13 / 10) 120 79 = 66 := by
  norm_num [blendChannel, clamp255Floor] <;> rfl

/-- Saturation 3/2 fixes black. -/
lemma blend_s0 : blendChannel (3 / 2) 0 0 = 0 := by
  norm_num [blendChannel, clamp255Floor] <;> rfl

/-- Saturation 3/2 fixes white. -/
lemma blend_s255 : blendChannel (3 / 2) 255 255 = 255 := by
  norm_num [blendChannel, clamp255Floor] <;> rfl

/-- Saturation 3/2 fixes grey 67. -/
lemma blend_s67 : blendChannel (3 / 2) 67 67 = 67 := by
  norm_num [blendChannel, clamp255Floor] <;> rfl

/-- Saturation 3/2 fixes grey 66. -/
lemma blend_s66 : blendChannel (3 / 2) 66 66 = 66 := by
  norm_num [blendChannel, clamp255Floor] <;> rfl

/-- Brightness 7/5 saturates white. -/
lemma blend_b75_255 : blendChannel (7 / 5) 0 255 = 255 := by
  norm_num [blendChannel, clamp255Floor] <;> rfl

/-- Contrast 13/10 at mean 255 fixes white. -/
lemma blend_c255_255 : blendChannel (13 / 10) 255 255 = 255 := by
  norm_num [blendChannel, clamp255Floor] <;> rfl

/-- Rounded greyscale mean of the brightened C8 strip at factor 115/64:
the brightened grey values are 8, 0, 255, 79, 255, whose mean 119.4 rounds
to 119. -/
lemma c8_mean1 : contrastMean (brightnessEnhance (115 / 64) (rgbPart c8Img)) = 119 := by
  unfold contrastMean meanL pixSum
  simp only [show (brightnessEnhance (115 / 64) (rgbPart c8Img)).width = 5 from rfl,
    show (brightnessEnhance (115 / 64) (rgbPart c8Img)).height = 1 from rfl,
    show List.range 5 = [0, 1, 2, 3, 4] from rfl,
    show List.range 1 = [0] from rfl,
    List.map_cons, List.map_nil, List.sum_cons, List.sum_nil,
    brightnessEnhance_pix, rgbPart_pix,
    c8Img_pix0, c8Img_pix1, c8Img_pix2, c8Img_pix3, c8Img_pix4,
    blend_b1_5, blend_b1_0, blend_b1_197, blend_b1_44, blend_b1_147, lum_gray]
  norm_num
  rfl

/-- Rounded greyscale mean of the brightened C8 strip at factor 29/16:
the brightened grey values are 9, 0, 255, 79, 255, whose mean 119.6 rounds
to 120. -/
lemma c8_mean2 : contrastMean (brightnessEnhance (29 / 16) (rgbPart c8Img)) = 120 := by
  unfold contrastMean meanL pixSum
  simp only [show (brightnessEnhance (29 / 16) (rgbPart c8Img)).width = 5 from rfl,
    show (brightnessEnhance (29 / 16) (rgbPart c8Img)).height = 1 from rfl,
    show List.range 5 = [0, 1, 2, 3, 4] from rfl,
    show List.range 1 = [0] from rfl,
    List.map_cons, List.map_nil, List.sum_cons, List.sum_nil,
    brightnessEnhance_pix, rgbPart_pix,
    c8Img_pix0, c8Img_pix1, c8Img_pix2, c8Img_pix3, c8Img_pix4,
    blend_b2_5, blend_b2_0, blend_b2_197, blend_b2_44, blend_b2_147, lum_gray]
  norm_num
  rfl

/-- Enhanced C8 pixel 0 at factor 115/64. -/
lemma c8e1_pix0 : (brightenedWith (115 / 64) c8Img).pix 0 0 = ⟨0, 0, 0, 255⟩ := by
  simp only [brightenedWith_pix, rgbEnhanced_def, colorEnhance_pix, contrastEnhance_pix,
    brightnessEnhance_pix, rgbPart_pix, c8_mean1, c8Img_pix0,
    blend_b1_5, blend_c119_8, lum_gray, blend_s0]

/-- Enhanced C8 pixel 1 at factor 115/64. -/
lemma c8e1_pix1 : (brightenedWith (115 / 64) c8Img).pix 1 0 = ⟨0, 0, 0, 255⟩ := by
  simp only [brightenedWith_pix, rgbEnhanced_def, colorEnhance_pix, contrastEnhance_pix,
    brightnessEnhance_pix, rgbPart_pix, c8_mean1, c8Img_pix1,
    blend_b1_0, blend_c119_0, lum_gray, blend_s0]

/-- Enhanced C8 pixel 2 at factor 115/64. -/
lemma c8e1_pix2 : (brightenedWith (115 / 64) c8Img).pix 2 0 = ⟨255, 255, 255, 255⟩ := by
  simp only [brightenedWith_pix, rgbEnhanced_def, colorEnhance_pix, contrastEnhance_pix,
    brightnessEnhance_pix, rgbPart_pix, c8_mean1, c8Img_pix2,
    blend_b1_197, blend_c119_255, lum_gray, blend_s255]

/-- Enhanced C8 pixel 3 at factor 115/64. -/
lemma c8e1_pix3 : (brightenedWith (115 / 64) c8Img).pix 3 0 = ⟨67, 67, 67, 255⟩ := by
  simp only [brightenedWith_pix, rgbEnhanced_def, colorEnhance_pix, contrastEnhance_pix,
    brightnessEnhance_pix, rgbPart_pix, c8_mean1, c8Img_pix3,
    blend_b1_44, blend_c119_79, lum_gray, blend_s67]

/-- Enhanced C8 pixel 4 at factor 115/64. -/
lemma c8e1_pix4 : (brightenedWith (115 / 64) c8Img).pix 4 0 = ⟨255, 255, 255, 255⟩ := by
  simp only [brightenedWith_pix, rgbEnhanced_def, colorEnhance_pix, contrastEnhance_pix,
    brightnessEnhance_pix, rgbPart_pix, c8_mean1, c8Img_pix4,
    blend_b1_147, blend_c119_255, lum_gray, blend_s255]

/-- Enhanced C8 pixel 0 at factor 29/16. -/
lemma c8e2_pix0 : (brightenedWith (29 / 16) c8Img).pix 0 0 = ⟨0, 0, 0, 255⟩ := by
  simp only [brightenedWith_pix, rgbEnhanced_def, colorEnhance_pix, contrastEnhance_pix,
    brightnessEnhance_pix, rgbPart_pix, c8_mean2, c8Img_pix0,
    blend_b2_5, blend_c120_9, lum_gray, blend_s0]

/-- Enhanced C8 pixel 1 at factor 29/16. -/
lemma c8e2_pix1 : (brightenedWith (29 / 16) c8Img).pix 1 0 = ⟨0, 0, 0, 255⟩ := by
  simp only [brightenedWith_pix, rgbEnhanced_def, colorEnhance_pix, contrastEnhance_pix,
    brightnessEnhance_pix, rgbPart_pix, c8_mean2, c8Img_pix1,
    blend_b2_0, blend_c120_0, lum_gray, blend_s0]

/-- Enhanced C8 pixel 2 at factor 29/16. -/
lemma c8e2_pix2 : (brightenedWith (29 / 16) c8Img).pix 2 0 = ⟨255, 255, 255, 255⟩ := by
  simp only [brightenedWith_pix, rgbEnhanced_def, colorEnhance_pix, contrastEnhance_pix,
    brightnessEnhance_pix, rgbPart_pix, c8_mean2, c8Img_pix2,
    blend_b2_197, blend_c120_255, lum_gray, blend_s255]

/-- Enhanced C8 pixel 3 at factor 29/16: one step darker than at 115/64. -/
lemma c8e2_pix3 : (brightenedWith (29 / 16) c8Img).pix 3 0 = ⟨66, 66, 66, 255⟩ := by
  simp only [brightenedWith_pix, rgbEnhanced_def, colorEnhance_pix, contrastEnhance_pix,
    brightnessEnhance_pix, rgbPart_pix, c8_mean2, c8Img_pix3,
    blend_b2_44, blend_c120_79, lum_gray, blend_s66]

/-- Enhanced C8 pixel 4 at factor 29/16. -/
lemma c8e2_pix4 : (brightenedWith (29 / 16) c8Img).pix 4 0 = ⟨255, 255, 255, 255⟩ := by
  simp only [brightenedWith_pix, rgbEnhanced_def, colorEnhance_pix, contrastEnhance_pix,
    brightnessEnhance_pix, rgbPart_pix, c8_mean2, c8Img_pix4,
    blend_b2_147, blend_c120_255, lum_gray, blend_s255]

/-- Mean RGB level of the enhanced C8 strip at brightness 115/64. -/
lemma c8_meanLum1 : meanLum (brightenedWith (115 / 64) c8Img) = 577 / 5 := by
  unfold meanLum pixSum
  simp only [show (brightenedWith (115 / 64) c8Img).width = 5 from rfl,
    show (brightenedWith (115 / 64) c8Img).height = 1 from rfl,
    show List.range 5 = [0, 1, 2, 3, 4] from rfl,
    show List.range 1 = [0] from rfl,
    List.map_cons, List.map_nil, List.sum_cons, List.sum_nil,
    c8e1_pix0, c8e1_pix1, c8e1_pix2, c8e1_pix3, c8e1_pix4]
  norm_num

/-- Mean RGB level of the enhanced C8 strip at brightness 29/16 is lower. -/
lemma c8_meanLum2 : meanLum (brightenedWith (29 / 16) c8Img) = 576 / 5 := by
  unfold meanLum pixSum
  simp only [show (brightenedWith (29 / 16) c8Img).width = 5 from rfl,
    show (brightenedWith (29 / 16) c8Img).height = 1 from rfl,
    show List.range 5 = [0, 1, 2, 3, 4] from rfl,
    show List.range 1 = [0] from rfl,
    List.map_cons, List.map_nil, List.sum_cons, List.sum_nil,
    c8e2_pix0, c8e2_pix1, c8e2_pix2, c8e2_pix3, c8e2_pix4]
  norm_num

/-- Rounded greyscale mean of the brightened C2 pixel: white stays white. -/
lemma c2_mean : contrastMean (brightnessEnhance (7 / 5) (rgbPart c2Img)) = 255 := by
  unfold contrastMean meanL pixSum
  simp only [show (brightnessEnhance (7 / 5) (rgbPart c2Img)).width = 1 from rfl,
    show (brightnessEnhance (7 / 5) (rgbPart c2Img)).height = 1 from rfl,
    show List.range 1 = [0] from rfl,
    List.map_cons, List.map_nil, List.sum_cons, List.sum_nil,
    brightnessEnhance_pix, rgbPart_pix,
    show c2Img.pix 0 0 = ⟨255, 255, 255, 128⟩ from rfl,
    blend_b75_255, lum_gray]
  norm_num
  rfl

/-- The enhanced C2 pixel: the white color saturates at every stage and the
input alpha 128 is re-attached. -/
lemma c2_enh_pix : (brightenedWith (7 / 5) c2Img).pix 0 0 = ⟨255, 255, 255, 128⟩ := by
  simp only [brightenedWith_pix, rgbEnhanced_def, colorEnhance_pix, contrastEnhance_pix,
    brightnessEnhance_pix, rgbPart_pix, c2_mean,
    show c2Img.pix 0 0 = ⟨255, 255, 255, 128⟩ from rfl,
    blend_b75_255, blend_c255_255, lum_gray, blend_s255]

/-- C2 counterexample: on a one-pixel white half-transparent icon both the
enhanced and glow pixels are (255,255,255,128), the compositor outputs color
channel 255 (straight, non-premultiplied color) with alpha 192, but the
spec's formula resultColor = enhancedColor * enhancedAlpha + glowColor *
glowAlpha * (1 - enhancedAlpha), computed in normalized space and rescaled
to 8 bits, evaluates to 48896/255, roughly 191.75: no rounding or clamping
to 8-bit integers can reconcile the two, so the claimed per-pixel color
relation fails at this pixel by more than one 8-bit step. -/
theorem claim2_counterexample :
    (brightenedOf c2Img).pix 0 0 = RGBA.mk 255 255 255 128 ∧
    (glowOf c2Img).pix 0 0 = RGBA.mk 255 255 255 128 ∧
    (finalOf c2Img).pix 0 0 = RGBA.mk 255 255 255 192 ∧
    ¬ |(((finalOf c2Img).pix 0 0).r : ℚ) -
        specOverColor ((brightenedOf c2Img).pix 0 0) ((glowOf c2Img).pix 0 0)| ≤ 1 := by
  have h00 : (brightenedOf c2Img).pix 0 0 = RGBA.mk 255 255 255 128 := c2_enh_pix
  have hbimg : brightenedOf c2Img = ⟨1, 1, fun _ _ => RGBA.mk 255 255 255 128⟩ :=
    img_eq_of_pix rfl rfl (fun x y => h00)
  have hglow : (glowOf c2Img).pix 0 0 = RGBA.mk 255 255 255 128 := by
    show (gaussianBlur4 (brightenedWith (7 / 5) c2Img)).pix 0 0 = _
    rw [show brightenedWith (7 / 5) c2Img =
          (⟨1, 1, fun _ _ => RGBA.mk 255 255 255 128⟩ : Img) from hbimg]
    rw [gaussianBlur4_const]
  have hcomp : compositePix (RGBA.mk 255 255 255 128) (RGBA.mk 255 255 255 128) =
      RGBA.mk 255 255 255 192 := by decide
  have hfinal : (finalOf c2Img).pix 0 0 = RGBA.mk 255 255 255 192 := by
    show (finalWith (7 / 5) c2Img).pix 0 0 = _
    rw [finalWith_pix (7 / 5) c2Img 0 0]
    rw [show (glowWith (7 / 5) c2Img).pix 0 0 = RGBA.mk 255 255 255 128 from hglow]
    rw [show (brightenedWith (7 / 5) c2Img).pix 0 0 = RGBA.mk 255 255 255 128 from h00]
    exact hcomp
  have hspec : specOverColor (RGBA.mk 255 255 255 128) (RGBA.mk 255 255 255 128) =
      48896 / 255 := by
    unfold specOverColor
    norm_num
  refine ⟨h00, hglow, hfinal, ?_⟩
  rw [hfinal, h00, hglow, hspec]
  rw [show ((RGBA.mk 255 255 255 192).r : ℚ) = 255 from by norm_num]
  rw [show (255 : ℚ) - 48896 / 255 = 16129 / 255 from by norm_num]
  rw [abs_of_nonneg (by norm_num : (0 : ℚ) ≤ 16129 / 255)]
  norm_num

/-- C2 amended: the compositing step does use glow as background and
enhanced as foreground, and the output alpha is exactly the spec's alpha
formula rounded to nearest (in 8-bit units, (2 * (eA * 255 + gA * (255 -
eA)) + 255) / 510 is round-to-nearest of (eA * 255 + gA * (255 - eA)) /
255); but the output color is the straight (non-premultiplied) over color
computed in Pillow's 7-bit fixed point, not the premultiplied product: with
an opaque foreground pixel the output is the foreground pixel, and with a
fully transparent foreground pixel the output is the glow pixel. -/
theorem claim2_amended (img : Img) (hWf : Img.Wf img) : ∀ x y,
    (finalOf img).pix x y =
      compositePix ((glowOf img).pix x y) ((brightenedOf img).pix x y) ∧
    ((finalOf img).pix x y).a =
      (2 * (((brightenedOf img).pix x y).a * 255 +
        ((glowOf img).pix x y).a * (255 - ((brightenedOf img).pix x y).a)) + 255) / 510 ∧
    (((brightenedOf img).pix x y).a = 255 →
      (finalOf img).pix x y = (brightenedOf img).pix x y) ∧
    (((brightenedOf img).pix x y).a = 0 →
      (finalOf img).pix x y = (glowOf img).pix x y) := by
  intro x y
  have hb := brightenedWith_Wf (7 / 5) hWf
  have hg := glowWith_Wf (7 / 5) hWf
  refine ⟨rfl, ?_, ?_, ?_⟩
  · exact compositePix_alpha (hg x y).2.2.2 (hb x y).2.2.2
  · intro h255
    exact compositePix_opaqueSrc (hb x y).1 (hb x y).2.1 (hb x y).2.2.1 h255
  · intro h0
    show compositePix ((glowOf img).pix x y) ((brightenedOf img).pix x y) =
      (glowOf img).pix x y
    rw [compositePix, if_pos h0]

/-- Witness for the amended C2 on a concrete translucent image. -/
theorem claim2_witness :
    ((finalOf wImgTranslucent).pix 0 0).a =
      (2 * (((brightenedOf wImgTranslucent).pix 0 0).a * 255 +
        ((glowOf wImgTranslucent).pix 0 0).a *
          (255 - ((brightenedOf wImgTranslucent).pix 0 0).a)) + 255) / 510 :=
  (claim2_amended wImgTranslucent
    (fun _ _ => (by decide : (RGBA.mk 10 20 30 40).Wf)) 0 0).2.1

/-- C8 counterexample: on the five-pixel opaque grey strip, raising the
brightness factor from 115/64 to 29/16 (with contrast 13/10 and saturation
3/2 fixed) lowers the mean RGB level of the pipeline output from 577/5 to
576/5: the brighter first pixel raises the rounded greyscale mean used by
the contrast stage from 119 to 120, which pushes the mid-grey fourth pixel
from 67 down to 66 while every other pixel is already saturated or black.
Since the strip is fully opaque the compositing step returns the enhanced
image, so the glow layer plays no role in the comparison. -/
theorem claim8_counterexample :
    (115 / 64 : ℚ) ≤ 29 / 16 ∧
    ¬ (meanLum (finalWith (115 / 64) c8Img) ≤ meanLum (finalWith (29 / 16) c8Img)) := by
  have hop : ∀ x y, (c8Img.pix x y).a = 255 := fun x y => rfl
  have he1 : finalWith (115 / 64) c8Img = brightenedWith (115 / 64) c8Img :=
    img_eq_of_pix (by rw [finalWith_width, brightenedWith_width])
      (by rw [finalWith_height, brightenedWith_height])
      (finalWith_opaqueInput (115 / 64) c8Img hop)
  have he2 : finalWith (29 / 16) c8Img = brightenedWith (29 / 16) c8Img :=
    img_eq_of_pix (by rw [finalWith_width, brightenedWith_width])
      (by rw [finalWith_height, brightenedWith_height])
      (finalWith_opaqueInput (29 / 16) c8Img hop)
  constructor
  · norm_num
  · rw [he1, he2, c8_meanLum1, c8_meanLum2]
    norm_num

/-- Raising the brightness factor never lowers a brightened channel. -/
lemma blendChannel_bright_mono {f1 f2 : ℚ} (h : f1 ≤ f2) {v : Nat} (hv : v ≤ 255) :
    blendChannel f1 0 v ≤ blendChannel f2 0 v := by
  rw [blendChannel_zero_left hv, blendChannel_zero_left hv]
  exact clamp255Floor_mono (mul_le_mul_of_nonneg_right h (by positivity))

/-- C8 amended: monotonicity holds of the brightness stage itself: with a
larger brightness factor no channel of the brightness-scaled image
decreases, so its mean RGB level does not decrease.  The full pipeline is
not monotone (see the counterexample) because the contrast stage subtracts
the global rounded greyscale mean, which also grows with brightness. -/
theorem claim8_amended (f1 f2 : ℚ) (h : f1 ≤ f2) (img : ImgRGB)
    (hWf : ImgRGB.Wf img) :
    meanLumRGB (brightnessEnhance f1 img) ≤ meanLumRGB (brightnessEnhance f2 img) := by
  unfold meanLumRGB pixSum
  simp only [show ∀ f : ℚ, (brightnessEnhance f img).width = img.width from fun _ => rfl,
    show ∀ f : ℚ, (brightnessEnhance f img).height = img.height from fun _ => rfl,
    brightnessEnhance_pix]
  have hnum : ∀ g1 g2 : ℚ, g1 ≤ g2 →
      ((List.range img.height).map (fun y => ((List.range img.width).map (fun x =>
        ((blendChannel g1 0 (img.pix x y).r : ℚ) + (blendChannel g1 0 (img.pix x y).g : ℚ) +
          (blendChannel g1 0 (img.pix x y).b : ℚ)))).sum)).sum ≤
      ((List.range img.height).map (fun y => ((List.range img.width).map (fun x =>
        ((blendChannel g2 0 (img.pix x y).r : ℚ) + (blendChannel g2 0 (img.pix x y).g : ℚ) +
          (blendChannel g2 0 (img.pix x y).b : ℚ)))).sum)).sum := by
    intro g1 g2 hg
    apply List.sum_le_sum
    intro y hy
    apply List.sum_le_sum
    intro x hx
    have h1 : blendChannel g1 0 (img.pix x y).r ≤ blendChannel g2 0 (img.pix x y).r :=
      blendChannel_bright_mono hg (hWf x y).1
    have h2 : blendChannel g1 0 (img.pix x y).g ≤ blendChannel g2 0 (img.pix x y).g :=
      blendChannel_bright_mono hg (hWf x y).2.1
    have h3 : blendChannel g1 0 (img.pix x y).b ≤ blendChannel g2 0 (img.pix x y).b :=
      blendChannel_bright_mono hg (hWf x y).2.2
    have c1 : (blendChannel g1 0 (img.pix x y).r : ℚ) ≤ blendChannel g2 0 (img.pix x y).r := by
      exact_mod_cast h1
    have c2 : (blendChannel g1 0 (img.pix x y).g : ℚ) ≤ blendChannel g2 0 (img.pix x y).g := by
      exact_mod_cast h2
    have c3 : (blendChannel g1 0 (img.pix x y).b : ℚ) ≤ blendChannel g2 0 (img.pix x y).b := by
      exact_mod_cast h3
    linarith
  rcases Nat.eq_zero_or_pos (img.width * img.height) with hz | hpos
  · rcases Nat.mul_eq_zero.mp hz with hw | hh
    · rw [hw]
      norm_num
    · rw [hh]
      norm_num
  · have hq : (0 : ℚ) < 3 * (img.width : ℚ) * (img.height : ℚ) := by
      have hw : 0 < img.width := by
        rcases Nat.eq_zero_or_pos img.width with hw0 | hw1
        · rw [hw0] at hpos
          omega
        · exact hw1
      have hh : 0 < img.height := by
        rcases Nat.eq_zero_or_pos img.height with hh0 | hh1
        · rw [hh0] at hpos
          omega
        · exact hh1
      have hw' : (0 : ℚ) < (img.width : ℚ) := by exact_mod_cast hw
      have hh' : (0 : ℚ) < (img.height : ℚ) := by exact_mod_cast hh
      positivity
    exact (div_le_div_right hq).mpr (hnum f1 f2 h)

/-- Witness for the amended C8 on a concrete image and factor pair. -/
theorem claim8_witness :
    meanLumRGB (brightnessEnhance 1 wImgGray) ≤ meanLumRGB (brightnessEnhance 2 wImgGray) :=
  claim8_amended 1 2 (by norm_num) wImgGray
    (fun _ _ => (by decide : (RGB.mk 100 50 25).Wf))

/-- Witness for C7: a successful run exits 0, a failing run exits non-zero. -/
theorem claim7_witness :
    (mainRun (fun _ => some wImgOpaque)).exitCode = 0 ∧
    (mainRun (fun _ => none)).exitCode ≠ 0 :=
  ⟨((claim7_success_output (fun _ => some wImgOpaque)).1 wImgOpaque rfl).1,
   (claim7_success_output (fun _ => none)).2 rfl⟩
